import Mathlib

/-!
Verification development for `labelimg_data_converter.py`: a shallow
embedding of the Flattener (`ImageData`), the Annotation Converter
(`MetaData.convert`), the Splitter (`TrainingData.split`) and the CLI
range check (`Range.__eq__`), together with theorems settling the
specification claims. Strings are modelled as `List Char`, Python ints
as `ℤ`/`ℕ`, Python floats as `ℚ` (all float values reached by the
claims are exactly representable and print in shortest form), and a
Python `assert` failure / uncaught exception as the `none` / `.error`
branch of `Option` / `Except`.
-/

attribute [local semireducible] Rat.mul Rat.inv Rat.add Rat.sub

namespace LabelImg

/-- Equality of `Except` results is decidable componentwise. -/
instance {ε α : Type} [DecidableEq ε] [DecidableEq α] :
    DecidableEq (Except ε α) := fun a b =>
  match a, b with
  | .error e1, .error e2 =>
    if h : e1 = e2 then isTrue (by rw [h]) else
      isFalse (by intro hc; cases hc; exact h rfl)
  | .ok v1, .ok v2 =>
    if h : v1 = v2 then isTrue (by rw [h]) else
      isFalse (by intro hc; cases hc; exact h rfl)
  | .error _, .ok _ => isFalse (by intro hc; cases hc)
  | .ok _, .error _ => isFalse (by intro hc; cases hc)

/-- Python `s.isdigit()` for ASCII data: nonempty and all decimal digits. -/
def isDigits (l : List Char) : Bool := !l.isEmpty && l.all Char.isDigit

/-- Python `s.split('.xml')[0]`: the characters strictly before the first
occurrence of the substring ".xml" (the whole string if none occurs). -/
def beforeXml : List Char → List Char
  | [] => []
  | c :: rest =>
    if (c :: rest).take 4 = ['.', 'x', 'm', 'l'] then [] else c :: beforeXml rest

/-- The single padding step of `sanitize_id`: when the extracted id is
not all digits, replace its first character with '0' (`'0' + xml_id[1:]`). -/
def padOnce (l : List Char) : List Char :=
  if isDigits l then l else '0' :: l.drop 1

/-- `ImageData.sanitize_id`: take the trailing 8 characters (`xml[-8:]`,
the whole string when shorter), drop the ".xml" tail, apply the single
padding step, then assert the result is a 4-digit string. `none` models
the `AssertionError` aborting the run. -/
def sanitize_id (xml : List Char) : Option (List Char) :=
  let window := xml.drop (xml.length - 8)
  let id1 := padOnce (beforeXml window)
  if isDigits id1 ∧ id1.length = 4 then some id1 else none

/-! ### Float printing

Python renders each value with `str(float)`. Every float reached by the
claims is exactly representable and prints as its shortest decimal form,
so we model the values as `ℚ` and printing as exact decimal expansion
(fuel-bounded), always emitting an integer part, a dot, and at least one
fractional digit, as `str` does for floats. -/

/-- Integer part of a nonnegative rational. -/
def ratIntPart (q : ℚ) : ℤ := q.num / (q.den : ℤ)

/-- Decimal digits of the fractional part `0 ≤ q < 1`, stopping at a zero
remainder, with fuel. -/
def fracChars : ℕ → ℚ → List Char
  | 0, _ => []
  | n + 1, q =>
    if q = 0 then []
    else
      let d := ratIntPart (q * 10)
      Char.ofNat (48 + d.toNat) :: fracChars n (q * 10 - (d : ℚ))

/-- Decimal digits of a natural number. -/
def natChars (n : ℕ) : List Char := Nat.toDigits 10 n

/-- `str(q)` for a float value modelled as `ℚ`. -/
def ratChars (q : ℚ) : List Char :=
  let sign : List Char := if q < 0 then ['-'] else []
  let a := if q < 0 then -q else q
  let ip := ratIntPart a
  let fp := a - (ip : ℚ)
  sign ++ natChars ip.toNat ++
    '.' :: (if fp = 0 then ['0'] else fracChars 25 fp)

/-! ### The Annotation Converter (`MetaData.convert`) -/

/-- One `size` block of a labelimg XML file. -/
structure SizeBlock where
  width : ℤ
  height : ℤ
  depth : ℤ
deriving DecidableEq

/-- One `bndbox` block. -/
structure BndBox where
  xmin : ℤ
  xmax : ℤ
  ymin : ℤ
  ymax : ℤ
deriving DecidableEq

/-- One `object` block: a class name and its `bndbox` sub-blocks. -/
structure Obj where
  name : List Char
  boxes : List BndBox
deriving DecidableEq

/-- A parsed annotation file: its `size` blocks and `object` blocks in
document order. -/
structure Annotation where
  sizes : List SizeBlock
  objects : List Obj
deriving DecidableEq

/-- The class map. The CLI builds a dict from the ordered class list;
we model it as an association list queried with `List.lookup`. -/
abbrev ClassMap := List (List Char × ℕ)

/-- The `for size in root.iter('size')` loop: per block, assert the depth
is 3, assert the dimensions were not already set, then set them. `.error`
models the `AssertionError`. -/
def scanSizes : List SizeBlock → Option ℤ → Option ℤ →
    Except Unit (Option ℤ × Option ℤ)
  | [], w, h => .ok (w, h)
  | s :: rest, w, h =>
    if s.depth ≠ 3 then .error ()
    else if w ≠ none then .error ()
    else if h ≠ none then .error ()
    else scanSizes rest (some s.width) (some s.height)

/-- Image dimensions from the `size` blocks; after the loop the code
asserts `img_width > 0` and `img_height > 0` (comparing `None` with an
int raises in Python 3, also modelled as `.error`). -/
def getDims (sizes : List SizeBlock) : Except Unit (ℤ × ℤ) :=
  match scanSizes sizes none none with
  | .error e => .error e
  | .ok (some w, some h) =>
    if 0 < w then (if 0 < h then .ok (w, h) else .error ()) else .error ()
  | .ok _ => .error ()

/-- The yolo line appended for one box of an object with class id `cid`
in a `w × h` image: class id then x-center, y-center, relative width and
relative height, space-separated, newline-terminated. -/
def objLine (cid : ℕ) (w h : ℤ) (b : BndBox) : List Char :=
  let abs_width : ℚ := ((b.xmax - b.xmin : ℤ) : ℚ)
  let abs_height : ℚ := ((b.ymax - b.ymin : ℤ) : ℚ)
  let xcenter := (abs_width / 2 + (b.xmin : ℚ)) / (w : ℚ)
  let ycenter := (abs_height / 2 + (b.ymin : ℚ)) / (h : ℚ)
  let rel_width := abs_width / (w : ℚ)
  let rel_height := abs_height / (h : ℚ)
  natChars cid ++ ' ' :: (ratChars xcenter ++ ' ' :: (ratChars ycenter ++
    ' ' :: (ratChars rel_width ++ ' ' :: (ratChars rel_height ++ ['\n']))))

/-- The `for bndbox in obj.iter('bndbox')` loop: assert all four
coordinates positive, then append the yolo line to the buffer. -/
def procBoxes (cid : ℕ) (w h : ℤ) : List BndBox → List Char →
    Except Unit (List Char)
  | [], acc => .ok acc
  | b :: rest, acc =>
    if b.xmin ≤ 0 then .error ()
    else if b.xmax ≤ 0 then .error ()
    else if b.ymin ≤ 0 then .error ()
    else if b.ymax ≤ 0 then .error ()
    else procBoxes cid w h rest (acc ++ objLine cid w h b)

/-- The `for obj in root.iter('object')` loop: an object whose class name
is not in the map is logged and skipped (the buffer is unchanged and the
loop continues); otherwise its boxes are processed. -/
def procObjs (classes : ClassMap) (w h : ℤ) : List Obj → List Char →
    Except Unit (List Char)
  | [], acc => .ok acc
  | o :: rest, acc =>
    match classes.lookup o.name with
    | none => procObjs classes w h rest acc
    | some cid =>
      match procBoxes cid w h o.boxes acc with
      | .error e => .error e
      | .ok acc2 => procObjs classes w h rest acc2

/-- `MetaData.convert` on a parsed annotation: `.ok none` models
"no valid objects: write no file, return False"; `.ok (some data)` models
"write `data` to the sibling .txt file, return True"; `.error` models an
`AssertionError` aborting the run. -/
def convert (classes : ClassMap) (a : Annotation) :
    Except Unit (Option (List Char)) :=
  match getDims a.sizes with
  | .error e => .error e
  | .ok (w, h) =>
    match procObjs classes w h a.objects [] with
    | .error e => .error e
    | .ok data => if data = [] then .ok none else .ok (some data)

/-! ### The Splitter (`TrainingData.split`) -/

/-- One annotation file seen by the Splitter's directory scan: its parsed
content, the image path line that would be written to a manifest, whether
the paired jpg exists, and the uniform random draw `random()` would
return for it. -/
structure SplitEntry where
  ann : Annotation
  jpgName : List Char
  jpgExists : Bool
  rand : ℚ
deriving DecidableEq

/-- Splitter state: the lines of the train and test manifests and the two
counters. -/
structure SplitState where
  train : List (List Char)
  test : List (List Char)
  detected : ℕ
  processed : ℕ
deriving DecidableEq

/-- One iteration of the Splitter loop: skip when the jpg is missing,
else count the pair as detected, convert, and on success append the image
path to the test manifest when `rand < p`, else to the train manifest. -/
def splitStep (classes : ClassMap) (p : ℚ) (st : SplitState)
    (e : SplitEntry) : Except Unit SplitState :=
  if e.jpgExists then
    let st1 : SplitState := { st with detected := st.detected + 1 }
    match convert classes e.ann with
    | .error err => .error err
    | .ok none => .ok st1
    | .ok (some _) =>
      if e.rand < p then
        .ok { st1 with test := st1.test ++ [e.jpgName],
                       processed := st1.processed + 1 }
      else
        .ok { st1 with train := st1.train ++ [e.jpgName],
                       processed := st1.processed + 1 }
  else .ok st

/-- The Splitter loop over the scanned annotation files. -/
def splitLoop (classes : ClassMap) (p : ℚ) : List SplitEntry → SplitState →
    Except Unit SplitState
  | [], st => .ok st
  | e :: rest, st =>
    match splitStep classes p st e with
    | .error err => .error err
    | .ok st2 => splitLoop classes p rest st2

/-- `TrainingData.split`: both manifests start empty (the files are
opened with mode 'w'), both counters start at 0. -/
def splitRun (classes : ClassMap) (p : ℚ) (entries : List SplitEntry) :
    Except Unit SplitState :=
  splitLoop classes p entries ⟨[], [], 0, 0⟩

/-! ### CLI configuration checks -/

/-- `Range.__eq__(self, other)`: `self.start <= other <= self.end` —
note the inclusive comparisons. -/
def rangeEq (start stop other : ℚ) : Bool :=
  decide (start ≤ other) && decide (other ≤ stop)

/-- argparse accepts `-p v` iff `v in choices`, i.e. `v == Range(0.0, 1.0)`. -/
def percentChoiceAccepts (v : ℚ) : Bool := rangeEq 0 1 v

/-- The assert guarding `TrainingData.__init__`:
`0.0 < percentage_test and percentage_test < 1.0`. -/
def trainingPre (p : ℚ) : Bool := decide ((0 : ℚ) < p) && decide (p < 1)

/-- Python `s.split(',')` (always at least one group). -/
def splitComma : List Char → List (List Char)
  | [] => [[]]
  | c :: rest =>
    if c = ',' then [] :: splitComma rest
    else
      match splitComma rest with
      | [] => [[c]]
      | g :: gs => (c :: g) :: gs

/-- The class map built by `parse_args` from the whitespace-stripped
class string: enumerate the comma-separated names, position as id.
(Python's dict keeps the last id for a duplicated name; the claims never
involve duplicate class names.) -/
def buildClasses (s : List Char) : ClassMap :=
  ((splitComma s).enum).map (fun p => (p.2, p.1))

/-! ### Derived notions used to state the claims -/

/-- A bounding box passing all four positivity asserts. -/
abbrev posBox (b : BndBox) : Prop :=
  0 < b.xmin ∧ 0 < b.xmax ∧ 0 < b.ymin ∧ 0 < b.ymax

/-- A bounding box with some non-positive coordinate (the spec's
"non-positive coordinates" schema violation). -/
abbrev badBox (b : BndBox) : Prop :=
  b.xmin ≤ 0 ∨ b.xmax ≤ 0 ∨ b.ymin ≤ 0 ∨ b.ymax ≤ 0

/-- The lines the Converter emits: one per object whose class name is in
the map (paired with that object's single box), in object order. -/
def emittedLines (classes : ClassMap) (w h : ℤ) (objs : List Obj) :
    List (List Char) :=
  objs.filterMap fun o =>
    match classes.lookup o.name, o.boxes with
    | some cid, [b] => some (objLine cid w h b)
    | _, _ => none

/-- The annotation line exactly as the spec words it: with
width = xmax−xmin and height = ymax−ymin, x-center =
(xmin + width/2) / image_width, y-center = (ymin + height/2) /
image_height, rel_width = width / image_width, rel_height =
height / image_height; the line is the class id followed by the four
values, space-separated. Stated for comparison with `objLine`. -/
def specLine (cid : ℕ) (iw ihh : ℤ) (b : BndBox) : List Char :=
  let width : ℚ := ((b.xmax - b.xmin : ℤ) : ℚ)
  let height : ℚ := ((b.ymax - b.ymin : ℤ) : ℚ)
  let xc := ((b.xmin : ℚ) + width / 2) / (iw : ℚ)
  let yc := ((b.ymin : ℚ) + height / 2) / (ihh : ℚ)
  let relW := width / (iw : ℚ)
  let relH := height / (ihh : ℚ)
  natChars cid ++ ' ' :: (ratChars xc ++ ' ' :: (ratChars yc ++
    ' ' :: (ratChars relW ++ ' ' :: (ratChars relH ++ ['\n']))))

/-- An annotation file the Splitter both detects (paired jpg exists) and
successfully converts (at least one recognized object). -/
def keptEntry (classes : ClassMap) (e : SplitEntry) : Bool :=
  e.jpgExists && (match convert classes e.ann with
    | .ok (some _) => true
    | _ => false)

/-! ### Helper lemmas about `sanitize_id` -/

theorem beforeXml_four {c1 c2 c3 c4 : Char}
    (h : ¬ ([c1, c2, c3, c4] = ['.', 'x', 'm', 'l'])) :
    beforeXml [c1, c2, c3, c4, '.', 'x', 'm', 'l'] = [c1, c2, c3, c4] := by
  rw [beforeXml, if_neg (by simpa using h)]
  rw [beforeXml, if_neg (by simp)]
  rw [beforeXml, if_neg (by simp)]
  rw [beforeXml, if_neg (by simp)]
  rw [beforeXml, if_pos (by simp)]

theorem window_eq (s : List Char) (h4 : 4 ≤ s.length) :
    (s ++ ".xml".toList).drop ((s ++ ".xml".toList).length - 8) =
      s.drop (s.length - 4) ++ ".xml".toList := by
  have hlen : (s ++ ".xml".toList).length = s.length + 4 := by simp
  rw [hlen]
  have h1 : s.length + 4 - 8 = s.length - 4 := by omega
  rw [h1]
  exact List.drop_append_of_le_length (by omega)

theorem last4_shape (s : List Char) (h4 : 4 ≤ s.length) :
    ∃ c1 c2 c3 c4, s.drop (s.length - 4) = [c1, c2, c3, c4] := by
  have hlen : (s.drop (s.length - 4)).length = 4 := by
    simp; omega
  match ht : s.drop (s.length - 4), hlen with
  | [c1, c2, c3, c4], _ => exact ⟨c1, c2, c3, c4, rfl⟩

/-- For any file name `s ++ ".xml"` with `s` at least 4 characters,
`sanitize_id` is the padding step applied to the last 4 characters of
`s`, guarded by the 4-digit assertion. -/
theorem sanitize_append (s : List Char) (h4 : 4 ≤ s.length) :
    sanitize_id (s ++ ".xml".toList) =
      (if isDigits (padOnce (s.drop (s.length - 4))) ∧
          (padOnce (s.drop (s.length - 4))).length = 4
       then some (padOnce (s.drop (s.length - 4))) else none) := by
  obtain ⟨c1, c2, c3, c4, ht⟩ := last4_shape s h4
  rw [sanitize_id, window_eq s h4, ht]
  by_cases hA : ([c1, c2, c3, c4] : List Char) = ['.', 'x', 'm', 'l']
  · rw [hA]
    simp [beforeXml, padOnce, isDigits]
  · rw [show ([c1, c2, c3, c4] : List Char) ++ ".xml".toList =
        [c1, c2, c3, c4, '.', 'x', 'm', 'l'] from rfl, beforeXml_four hA]

/-! ### Claims C2, C8, C9, C10: frame-id canonicalization -/

/-- C2: every valid 3-digit frame id is left-padded with a single '0' to
exactly 4 digits, every valid 4-digit frame id is returned unchanged, and
any frame id `sanitize_id` accepts is exactly 4 digits. -/
theorem C2_frame_id_canonicalization :
    (∀ a b c : Char, a.isDigit = true → b.isDigit = true → c.isDigit = true →
      sanitize_id ("frame".toList ++ [a, b, c] ++ ".xml".toList) =
        some ('0' :: [a, b, c])) ∧
    (∀ a b c d : Char, a.isDigit = true → b.isDigit = true →
      c.isDigit = true → d.isDigit = true →
      sanitize_id ("frame".toList ++ [a, b, c, d] ++ ".xml".toList) =
        some [a, b, c, d]) ∧
    (∀ xml res, sanitize_id xml = some res →
      isDigits res = true ∧ res.length = 4) := by
  refine ⟨?_, ?_, ?_⟩
  · intro a b c ha hb hc
    rw [sanitize_append ("frame".toList ++ [a, b, c]) (by simp)]
    rw [show ("frame".toList ++ [a, b, c]).drop
        (("frame".toList ++ [a, b, c]).length - 4) = ['e', a, b, c] from rfl]
    rw [show padOnce ['e', a, b, c] = '0' :: [a, b, c] from by
      rw [padOnce, if_neg (by simp [isDigits])]
      rfl]
    rw [if_pos ⟨by simp [isDigits, ha, hb, hc], rfl⟩]
  · intro a b c d ha hb hc hd
    rw [sanitize_append ("frame".toList ++ [a, b, c, d]) (by simp)]
    rw [show ("frame".toList ++ [a, b, c, d]).drop
        (("frame".toList ++ [a, b, c, d]).length - 4) = [a, b, c, d] from rfl]
    rw [show padOnce [a, b, c, d] = [a, b, c, d] from by
      rw [padOnce, if_pos (by simp [isDigits, ha, hb, hc, hd])]]
    rw [if_pos ⟨by simp [isDigits, ha, hb, hc, hd], rfl⟩]
  · intro xml res h
    rw [sanitize_id] at h
    by_cases hc : isDigits (padOnce (beforeXml (xml.drop (xml.length - 8)))) = true ∧
        (padOnce (beforeXml (xml.drop (xml.length - 8)))).length = 4
    · rw [if_pos hc] at h
      cases h
      exact hc
    · rw [if_neg hc] at h
      cases h

/-- Witness for C2 at concrete inputs: frame023 pads to 0023 and
frame1425 is unchanged. -/
theorem C2_frame_id_canonicalization_witness :
    sanitize_id ("frame".toList ++ ['0', '2', '3'] ++ ".xml".toList) =
      some ('0' :: ['0', '2', '3']) ∧
    sanitize_id ("frame".toList ++ ['1', '4', '2', '5'] ++ ".xml".toList) =
      some ['1', '4', '2', '5'] :=
  ⟨C2_frame_id_canonicalization.1 '0' '2' '3' (by decide) (by decide) (by decide),
   C2_frame_id_canonicalization.2.1 '1' '4' '2' '5'
     (by decide) (by decide) (by decide) (by decide)⟩

/-- C8 counterexample: `frame23.xml` is not canonicalized to "0023"; the
padded slice "0e23" fails the digit assertion and `sanitize_id` aborts. -/
theorem C8_frame23_not_accepted :
    sanitize_id "frame23.xml".toList ≠ some "0023".toList := by decide

/-- C8 amended: on `frame23.xml` (2-digit frame id) `sanitize_id` fails
its assertion and aborts the run instead of producing a canonical id. -/
theorem C8_frame23_aborts :
    sanitize_id "frame23.xml".toList = none := by decide

/-- C9: when the trailing 4 characters before ".xml" are not all digits
after the single padding step, `sanitize_id` fails its assertion (the
run aborts) rather than producing a mis-renamed output name. -/
theorem C9_unparseable_suffix_aborts (s : List Char) (h4 : 4 ≤ s.length)
    (hbad : ¬ isDigits (padOnce (s.drop (s.length - 4))) = true) :
    sanitize_id (s ++ ".xml".toList) = none := by
  rw [sanitize_append s h4, if_neg]
  intro hc
  exact hbad hc.1

/-- Witness for C9: `frameabcd.xml` aborts. -/
theorem C9_unparseable_suffix_aborts_witness :
    sanitize_id ("frameabcd".toList ++ ".xml".toList) = none :=
  C9_unparseable_suffix_aborts "frameabcd".toList (by decide) (by decide)

/-- C10: when the stem's trailing 4 characters are digits (in particular
whenever the stem ends in 4 or more digits), `sanitize_id` succeeds and
returns exactly those last 4 digits, silently discarding anything before
them. -/
theorem C10_long_suffix_truncated (s : List Char) (h4 : 4 ≤ s.length)
    (hdig : isDigits (s.drop (s.length - 4)) = true) :
    sanitize_id (s ++ ".xml".toList) = some (s.drop (s.length - 4)) := by
  have hp : padOnce (s.drop (s.length - 4)) = s.drop (s.length - 4) := by
    rw [padOnce, if_pos hdig]
  rw [sanitize_append s h4, hp, if_pos ⟨hdig, by simp; omega⟩]

/-- Witness for C10: `frame12345.xml` yields "2345", dropping the
leading digit 1. -/
theorem C10_long_suffix_truncated_witness :
    sanitize_id ("frame12345".toList ++ ".xml".toList) =
      some ("frame12345".toList.drop ("frame12345".toList.length - 4)) :=
  C10_long_suffix_truncated "frame12345".toList (by decide) (by decide)

/-! ### Claim C1: the emitted annotation line -/

/-- C1: the line the Converter emits for a retained object is the class
id followed by the spec's x-center, y-center, rel_width and rel_height,
space-separated; and on the concrete scenario (class "cat" of id 0, box
(10,50,20,60), 100×100 image) the converted file content is exactly the
line "0 0.3 0.4 0.4 0.4". -/
theorem C1_emitted_line :
    (∀ cid iw ih b, objLine cid iw ih b = specLine cid iw ih b) ∧
    convert [("cat".toList, 0), ("dog".toList, 1)]
        ⟨[⟨100, 100, 3⟩], [⟨"cat".toList, [⟨10, 50, 20, 60⟩]⟩]⟩ =
      .ok (some "0 0.3 0.4 0.4 0.4\n".toList) := by
  constructor
  · intro cid iw ih b
    rw [objLine, specLine]
    rw [add_comm (((b.xmax - b.xmin : ℤ) : ℚ) / 2) ((b.xmin : ℚ))]
    rw [add_comm (((b.ymax - b.ymin : ℤ) : ℚ) / 2) ((b.ymin : ℚ))]
  · decide

/-! ### Helper lemmas about the Converter loops -/

theorem procBoxes_single (cid : ℕ) (w h : ℤ) (b : BndBox) (acc : List Char)
    (hb : posBox b) :
    procBoxes cid w h [b] acc = .ok (acc ++ objLine cid w h b) := by
  obtain ⟨h1, h2, h3, h4⟩ := hb
  rw [procBoxes, if_neg (by omega), if_neg (by omega), if_neg (by omega),
    if_neg (by omega), procBoxes]

theorem procObjs_ok (classes : ClassMap) (w h : ℤ) (objs : List Obj)
    (hobj : ∀ o ∈ objs, (classes.lookup o.name).isSome = true →
      ∃ b, o.boxes = [b] ∧ posBox b) :
    ∀ acc, procObjs classes w h objs acc =
      .ok (acc ++ (emittedLines classes w h objs).flatten) := by
  induction objs with
  | nil => intro acc; simp [procObjs, emittedLines]
  | cons o rest ih =>
    intro acc
    have ihrest := ih (fun o ho hs => hobj o (List.mem_cons_of_mem _ ho) hs)
    cases hlk : classes.lookup o.name with
    | none =>
      rw [procObjs]
      simp only [hlk]
      rw [ihrest acc]
      have hemit : emittedLines classes w h (o :: rest) =
          emittedLines classes w h rest := by
        simp [emittedLines, List.filterMap_cons, hlk]
      rw [hemit]
    | some cid =>
      obtain ⟨b, hbx, hpos⟩ :=
        hobj o (List.mem_cons_self o rest) (by rw [hlk]; rfl)
      rw [procObjs]
      simp only [hlk, hbx]
      rw [procBoxes_single cid w h b acc hpos]
      rw [show (match (Except.ok (acc ++ objLine cid w h b) :
            Except Unit (List Char)) with
          | Except.error e => Except.error e
          | Except.ok acc2 => procObjs classes w h rest acc2) =
          procObjs classes w h rest (acc ++ objLine cid w h b) from rfl]
      rw [ihrest (acc ++ objLine cid w h b)]
      have hemit : emittedLines classes w h (o :: rest) =
          objLine cid w h b :: emittedLines classes w h rest := by
        simp [emittedLines, List.filterMap_cons, hlk, hbx]
      rw [hemit]
      simp

theorem emittedLines_count (classes : ClassMap) (w h : ℤ) (objs : List Obj)
    (hobj : ∀ o ∈ objs, (classes.lookup o.name).isSome = true →
      ∃ b, o.boxes = [b] ∧ posBox b) :
    (emittedLines classes w h objs).length =
      (objs.filter fun o => (classes.lookup o.name).isSome).length := by
  induction objs with
  | nil => simp [emittedLines]
  | cons o rest ih =>
    have ihrest := ih (fun o ho hs => hobj o (List.mem_cons_of_mem _ ho) hs)
    cases hlk : classes.lookup o.name with
    | none =>
      simp [emittedLines, List.filterMap_cons, hlk, List.filter_cons]
        at ihrest ⊢
      rw [ihrest]
    | some cid =>
      obtain ⟨b, hbx, hpos⟩ :=
        hobj o (List.mem_cons_self o rest) (by rw [hlk]; rfl)
      simp [emittedLines, List.filterMap_cons, hlk, hbx, List.filter_cons]
        at ihrest ⊢
      rw [ihrest]

theorem objLine_ne_nil (cid : ℕ) (w h : ℤ) (b : BndBox) :
    objLine cid w h b ≠ [] := by
  rw [objLine]; simp

theorem emittedLines_flatten_ne_nil (classes : ClassMap) (w h : ℤ)
    (objs : List Obj) (hlen : 0 < (emittedLines classes w h objs).length) :
    (emittedLines classes w h objs).flatten ≠ [] := by
  cases hE : emittedLines classes w h objs with
  | nil => rw [hE] at hlen; simp at hlen
  | cons l ls =>
    have hl : l ∈ emittedLines classes w h objs := by rw [hE]; simp
    rw [emittedLines, List.mem_filterMap] at hl
    obtain ⟨o, _, ho⟩ := hl
    have hne : l ≠ [] := by
      cases hlk : classes.lookup o.name with
      | none => rw [hlk] at ho; simp at ho
      | some cid =>
        cases hbx : o.boxes with
        | nil => rw [hlk, hbx] at ho; simp at ho
        | cons b bs =>
          cases bs with
          | nil =>
            rw [hlk, hbx] at ho
            simp at ho
            rw [← ho]
            exact objLine_ne_nil cid w h b
          | cons b2 bs2 => rw [hlk, hbx] at ho; simp at ho
    simp [hne]

theorem procObjs_all_none (classes : ClassMap) (w h : ℤ) (objs : List Obj)
    (hall : ∀ o ∈ objs, classes.lookup o.name = none) :
    ∀ acc, procObjs classes w h objs acc = .ok acc := by
  induction objs with
  | nil => intro acc; rw [procObjs]
  | cons o rest ih =>
    intro acc
    rw [procObjs]
    simp only [hall o (List.mem_cons_self o rest)]
    exact ih (fun o ho => hall o (List.mem_cons_of_mem _ ho)) acc

theorem convert_dims (classes : ClassMap) (a : Annotation) (w h : ℤ)
    (hgd : getDims a.sizes = .ok (w, h)) :
    convert classes a =
      match procObjs classes w h a.objects [] with
      | .error e => .error e
      | .ok data => if data = [] then .ok none else .ok (some data) := by
  rw [convert, hgd]

theorem convert_matchOk (x : List Char) :
    (match (Except.ok x : Except Unit (List Char)) with
      | .error e => (.error e : Except Unit (Option (List Char)))
      | .ok data => if data = [] then .ok none else .ok (some data)) =
      if x = [] then .ok none else .ok (some x) := rfl

/-! ### Claim C5: no-objects failure vs one line per recognized object -/

/-- C5: with valid dimensions, an annotation all of whose objects have
unrecognized class names converts to `.ok none` (no .txt file written,
False returned); when at least one object is recognized (each recognized
object carrying its single, positive box), the Converter returns success
with the emitted lines — exactly one line per recognized object, in
object order. -/
theorem C5_no_objects_vs_line_per_object :
    (∀ (classes : ClassMap) (a : Annotation) (w h : ℤ),
      getDims a.sizes = .ok (w, h) →
      (∀ o ∈ a.objects, classes.lookup o.name = none) →
      convert classes a = .ok none) ∧
    (∀ (classes : ClassMap) (a : Annotation) (w h : ℤ),
      getDims a.sizes = .ok (w, h) →
      (∀ o ∈ a.objects, (classes.lookup o.name).isSome = true →
        ∃ b, o.boxes = [b] ∧ posBox b) →
      0 < (emittedLines classes w h a.objects).length →
      convert classes a =
        .ok (some (emittedLines classes w h a.objects).flatten) ∧
      (emittedLines classes w h a.objects).length =
        (a.objects.filter fun o => (classes.lookup o.name).isSome).length) := by
  constructor
  · intro classes a w h hgd hall
    rw [convert_dims classes a w h hgd]
    rw [procObjs_all_none classes w h a.objects hall [], convert_matchOk]
    rw [if_pos rfl]
  · intro classes a w h hgd hobj hlen
    refine ⟨?_, emittedLines_count classes w h a.objects hobj⟩
    rw [convert_dims classes a w h hgd]
    rw [procObjs_ok classes w h a.objects hobj []]
    rw [List.nil_append, convert_matchOk]
    rw [if_neg (emittedLines_flatten_ne_nil classes w h a.objects hlen)]

/-- Witness for C5: a lone "bird" object (not in the map) yields
`.ok none`; the "cat" annotation yields its emitted lines, one per
recognized object. -/
theorem C5_no_objects_vs_line_per_object_witness :
    convert [("cat".toList, 0)]
        ⟨[⟨100, 100, 3⟩], [⟨"bird".toList, [⟨10, 50, 20, 60⟩]⟩]⟩ =
      .ok none ∧
    (convert [("cat".toList, 0)]
        ⟨[⟨100, 100, 3⟩], [⟨"cat".toList, [⟨10, 50, 20, 60⟩]⟩]⟩ =
      .ok (some (emittedLines [("cat".toList, 0)] 100 100
        [⟨"cat".toList, [⟨10, 50, 20, 60⟩]⟩]).flatten) ∧
      (emittedLines [("cat".toList, 0)] 100 100
        [⟨"cat".toList, [⟨10, 50, 20, 60⟩]⟩]).length =
      (([⟨"cat".toList, [⟨10, 50, 20, 60⟩]⟩] : List Obj).filter
        fun o => (List.lookup o.name [("cat".toList, 0)]).isSome).length) :=
  ⟨C5_no_objects_vs_line_per_object.1 _ _ 100 100 (by decide) (by decide),
   C5_no_objects_vs_line_per_object.2 _ _ 100 100 (by decide)
     (fun o ho _ => by
        rw [List.mem_singleton] at ho
        subst ho
        exact ⟨⟨10, 50, 20, 60⟩, rfl,
          ⟨by decide, by decide, by decide, by decide⟩⟩)
     (by decide)⟩

/-! ### Claim C6: unrecognized class names skip only that object -/

theorem procObjs_skip (classes : ClassMap) (w h : ℤ) (o : Obj)
    (hlk : classes.lookup o.name = none) :
    ∀ (pre post : List Obj) (acc : List Char),
      procObjs classes w h (pre ++ o :: post) acc =
        procObjs classes w h (pre ++ post) acc := by
  intro pre
  induction pre with
  | nil =>
    intro post acc
    simp only [List.nil_append]
    rw [procObjs]
    simp only [hlk]
  | cons p pre2 ih =>
    intro post acc
    simp only [List.cons_append]
    rw [procObjs, procObjs]
    cases hpk : classes.lookup p.name with
    | none => simp only [hpk]; exact ih post acc
    | some cid =>
      simp only [hpk]
      cases hpb : procBoxes cid w h p.boxes acc with
      | error e => rfl
      | ok acc2 => exact ih post acc2

/-- C6: an object whose class name is absent from the class map is
skipped and the rest of the file is processed exactly as if that object
were not there; when such an object is the only one, the conversion
returns `.ok none` (no .txt file is produced). -/
theorem C6_unrecognized_class_skips_object :
    (∀ (classes : ClassMap) (sizes : List SizeBlock) (pre post : List Obj)
        (o : Obj), classes.lookup o.name = none →
      convert classes ⟨sizes, pre ++ o :: post⟩ =
        convert classes ⟨sizes, pre ++ post⟩) ∧
    (∀ (classes : ClassMap) (sizes : List SizeBlock) (w h : ℤ) (o : Obj),
      getDims sizes = .ok (w, h) → classes.lookup o.name = none →
      convert classes ⟨sizes, [o]⟩ = .ok none) := by
  constructor
  · intro classes sizes pre post o hlk
    cases hgd : getDims sizes with
    | error e => rw [convert, convert, hgd]
    | ok wh =>
      obtain ⟨w, h⟩ := wh
      rw [convert_dims classes ⟨sizes, pre ++ o :: post⟩ w h hgd,
        convert_dims classes ⟨sizes, pre ++ post⟩ w h hgd]
      rw [show (⟨sizes, pre ++ o :: post⟩ : Annotation).objects =
        pre ++ o :: post from rfl]
      rw [show (⟨sizes, pre ++ post⟩ : Annotation).objects =
        pre ++ post from rfl]
      rw [procObjs_skip classes w h o hlk pre post []]
  · intro classes sizes w h o hgd hlk
    rw [convert_dims classes ⟨sizes, [o]⟩ w h hgd]
    rw [show (⟨sizes, [o]⟩ : Annotation).objects = [o] from rfl]
    rw [procObjs]
    simp only [hlk]
    rw [procObjs, convert_matchOk, if_pos rfl]

/-- Witness for C6: dropping an unknown "bird" object leaves the result
of converting the remaining "cat" object unchanged, and a lone "bird"
object gives `.ok none`. -/
theorem C6_unrecognized_class_skips_object_witness :
    convert [("cat".toList, 0)]
        ⟨[⟨100, 100, 3⟩], [] ++ (⟨"bird".toList, [⟨10, 50, 20, 60⟩]⟩ : Obj) ::
          [⟨"cat".toList, [⟨15, 40, 25, 35⟩]⟩]⟩ =
      convert [("cat".toList, 0)]
        ⟨[⟨100, 100, 3⟩], [] ++ [⟨"cat".toList, [⟨15, 40, 25, 35⟩]⟩]⟩ ∧
    convert [("cat".toList, 0)]
        ⟨[⟨100, 100, 3⟩], [⟨"bird".toList, [⟨10, 50, 20, 60⟩]⟩]⟩ =
      .ok none :=
  ⟨C6_unrecognized_class_skips_object.1 [("cat".toList, 0)] [⟨100, 100, 3⟩]
     [] [⟨"cat".toList, [⟨15, 40, 25, 35⟩]⟩] ⟨"bird".toList,
       [⟨10, 50, 20, 60⟩]⟩ (by decide),
   C6_unrecognized_class_skips_object.2 [("cat".toList, 0)] [⟨100, 100, 3⟩]
     100 100 ⟨"bird".toList, [⟨10, 50, 20, 60⟩]⟩ (by decide) (by decide)⟩

/-! ### Claim C7: schema violations are fatal -/

theorem scanSizes_error_of_set (sizes : List SizeBlock) (w0 h0 : Option ℤ)
    (hne : sizes ≠ []) (hw : w0 ≠ none) :
    scanSizes sizes w0 h0 = .error () := by
  cases sizes with
  | nil => exact absurd rfl hne
  | cons s rest =>
    rw [scanSizes]
    by_cases hd : s.depth ≠ 3
    · rw [if_pos hd]
    · rw [if_neg hd, if_pos hw]

theorem scanSizes_error_bad_depth :
    ∀ (sizes : List SizeBlock) (w0 h0 : Option ℤ),
      (∃ s ∈ sizes, s.depth ≠ 3) → scanSizes sizes w0 h0 = .error () := by
  intro sizes
  induction sizes with
  | nil =>
    intro w0 h0 hex
    obtain ⟨s, hs, _⟩ := hex
    cases hs
  | cons s rest ih =>
    intro w0 h0 hex
    obtain ⟨t, ht, htd⟩ := hex
    rw [scanSizes]
    by_cases hd : s.depth ≠ 3
    · rw [if_pos hd]
    · rw [if_neg hd]
      by_cases hw : w0 ≠ none
      · rw [if_pos hw]
      · rw [if_neg hw]
        by_cases hh : h0 ≠ none
        · rw [if_pos hh]
        · rw [if_neg hh]
          have htr : t ∈ rest := by
            rcases List.mem_cons.mp ht with he | hr
            · exact absurd (he ▸ htd) hd
            · exact hr
          exact scanSizes_error_of_set rest _ _
            (List.ne_nil_of_mem htr) (by simp)

theorem scanSizes_error_two (s1 s2 : SizeBlock) (rest : List SizeBlock) :
    scanSizes (s1 :: s2 :: rest) none none = .error () := by
  rw [scanSizes]
  by_cases hd : s1.depth ≠ 3
  · rw [if_pos hd]
  · rw [if_neg hd, if_neg (by simp), if_neg (by simp)]
    exact scanSizes_error_of_set (s2 :: rest) _ _ (by simp) (by simp)

theorem getDims_error (sizes : List SizeBlock)
    (h : scanSizes sizes none none = .error ()) :
    getDims sizes = .error () := by
  rw [getDims, h]

theorem convert_error_of_getDims (classes : ClassMap) (a : Annotation)
    (h : getDims a.sizes = .error ()) :
    convert classes a = .error () := by
  rw [convert, h]

theorem procBoxes_error (cid : ℕ) (w h : ℤ) :
    ∀ (boxes : List BndBox) (b : BndBox), b ∈ boxes → badBox b →
      ∀ acc, procBoxes cid w h boxes acc = .error () := by
  intro boxes
  induction boxes with
  | nil => intro b hb; cases hb
  | cons b0 rest ih =>
    intro b hb hbad acc
    rw [procBoxes]
    by_cases h1 : b0.xmin ≤ 0
    · rw [if_pos h1]
    · rw [if_neg h1]
      by_cases h2 : b0.xmax ≤ 0
      · rw [if_pos h2]
      · rw [if_neg h2]
        by_cases h3 : b0.ymin ≤ 0
        · rw [if_pos h3]
        · rw [if_neg h3]
          by_cases h4 : b0.ymax ≤ 0
          · rw [if_pos h4]
          · rw [if_neg h4]
            rcases List.mem_cons.mp hb with he | hr
            · subst he
              rcases hbad with hx | hx | hx | hx <;> omega
            · exact ih b hr hbad _

theorem procObjs_error (classes : ClassMap) (w h : ℤ) :
    ∀ (objs : List Obj) (o : Obj), o ∈ objs →
      ∀ cid, classes.lookup o.name = some cid →
      (∀ acc, procBoxes cid w h o.boxes acc = .error ()) →
      ∀ acc, procObjs classes w h objs acc = .error () := by
  intro objs
  induction objs with
  | nil => intro o ho; cases ho
  | cons o0 rest ih =>
    intro o ho cid hlk hpb acc
    rw [procObjs]
    rcases List.mem_cons.mp ho with he | hr
    · subst he
      simp only [hlk]
      rw [hpb acc]
    · cases hlk0 : classes.lookup o0.name with
      | none => simp only [hlk0]; exact ih o hr cid hlk hpb acc
      | some cid0 =>
        simp only [hlk0]
        cases hpb0 : procBoxes cid0 w h o0.boxes acc with
        | error e => cases e; rfl
        | ok acc2 => exact ih o hr cid hlk hpb acc2

theorem splitLoop_error (classes : ClassMap) (p : ℚ) :
    ∀ (entries : List SplitEntry) (e : SplitEntry), e ∈ entries →
      e.jpgExists = true → convert classes e.ann = .error () →
      ∀ st, splitLoop classes p entries st = .error () := by
  intro entries
  induction entries with
  | nil => intro e he; cases he
  | cons e0 rest ih =>
    intro e he hjpg hcv st
    rw [splitLoop]
    rcases List.mem_cons.mp he with h0 | hr
    · subst h0
      rw [splitStep, if_pos hjpg, hcv]
    · cases hss : splitStep classes p st e0 with
      | error err => cases err; rfl
      | ok st2 => exact ih e hr hjpg hcv st2

/-- C7 counterexample: an annotation whose only object has a non-positive
coordinate (xmin = −5) but an unrecognized class name ("bird") does NOT
fail fatally: the object is skipped before its coordinates are checked
and the Converter returns `.ok none`. The claim's "for every annotation
file whose bounding-box coordinates are non-positive" is therefore false
as stated. -/
theorem C7_nonpositive_coords_counterexample :
    convert [("cat".toList, 0)]
        ⟨[⟨100, 100, 3⟩], [⟨"bird".toList, [⟨-5, 50, 20, 60⟩]⟩]⟩ =
      .ok none ∧
    convert [("cat".toList, 0)]
        ⟨[⟨100, 100, 3⟩], [⟨"bird".toList, [⟨-5, 50, 20, 60⟩]⟩]⟩ ≠
      .error () := by decide

/-- C7 amended: a channel depth other than 3, more than one size block,
or a non-positive coordinate on an object whose class IS in the class
map, each make the Converter raise (`.error`), and a raising conversion
aborts the whole Splitter run rather than being recovered per-file. -/
theorem C7_schema_violations_fatal :
    (∀ (classes : ClassMap) (a : Annotation) (s : SizeBlock),
      s ∈ a.sizes → s.depth ≠ 3 → convert classes a = .error ()) ∧
    (∀ (classes : ClassMap) (a : Annotation),
      2 ≤ a.sizes.length → convert classes a = .error ()) ∧
    (∀ (classes : ClassMap) (a : Annotation) (w h : ℤ) (o : Obj)
        (b : BndBox) (cid : ℕ), getDims a.sizes = .ok (w, h) →
      o ∈ a.objects → classes.lookup o.name = some cid →
      b ∈ o.boxes → badBox b → convert classes a = .error ()) ∧
    (∀ (classes : ClassMap) (p : ℚ) (entries : List SplitEntry)
        (e : SplitEntry), e ∈ entries → e.jpgExists = true →
      convert classes e.ann = .error () →
      splitRun classes p entries = .error ()) := by
  refine ⟨?_, ?_, ?_, ?_⟩
  · intro classes a s hs hd
    exact convert_error_of_getDims classes a
      (getDims_error a.sizes (scanSizes_error_bad_depth a.sizes none none
        ⟨s, hs, hd⟩))
  · intro classes a hlen
    apply convert_error_of_getDims classes a
    apply getDims_error
    cases hsz : a.sizes with
    | nil => rw [hsz] at hlen; simp at hlen
    | cons s1 rest1 =>
      cases rest1 with
      | nil => rw [hsz] at hlen; simp at hlen
      | cons s2 rest2 => exact scanSizes_error_two s1 s2 rest2
  · intro classes a w h o b cid hgd ho hlk hb hbad
    rw [convert_dims classes a w h hgd]
    rw [procObjs_error classes w h a.objects o ho cid hlk
      (fun acc => procBoxes_error cid w h o.boxes b hb hbad acc) []]
  · intro classes p entries e he hjpg hcv
    rw [splitRun]
    exact splitLoop_error classes p entries e he hjpg hcv ⟨[], [], 0, 0⟩

/-- Witness for C7 at concrete inputs: depth 1 is fatal, two size blocks
are fatal, a recognized object with xmin = −5 is fatal, and the fatal
conversion makes the whole Splitter run error out. -/
theorem C7_schema_violations_fatal_witness :
    convert [] ⟨[⟨100, 100, 1⟩], []⟩ = .error () ∧
    convert [] ⟨[⟨100, 100, 3⟩, ⟨100, 100, 3⟩], []⟩ = .error () ∧
    convert [("cat".toList, 0)]
        ⟨[⟨100, 100, 3⟩], [⟨"cat".toList, [⟨-5, 50, 20, 60⟩]⟩]⟩ =
      .error () ∧
    splitRun [("cat".toList, 0)] (1/10)
        [⟨⟨[⟨100, 100, 3⟩], [⟨"cat".toList, [⟨-5, 50, 20, 60⟩]⟩]⟩,
          "a.jpg".toList, true, 1/2⟩] = .error () :=
  ⟨C7_schema_violations_fatal.1 [] ⟨[⟨100, 100, 1⟩], []⟩ ⟨100, 100, 1⟩
     (by decide) (by decide),
   C7_schema_violations_fatal.2.1 [] ⟨[⟨100, 100, 3⟩, ⟨100, 100, 3⟩], []⟩
     (by decide),
   C7_schema_violations_fatal.2.2.1 [("cat".toList, 0)]
     ⟨[⟨100, 100, 3⟩], [⟨"cat".toList, [⟨-5, 50, 20, 60⟩]⟩]⟩ 100 100
     ⟨"cat".toList, [⟨-5, 50, 20, 60⟩]⟩ ⟨-5, 50, 20, 60⟩ 0
     (by decide) (by decide) (by decide) (by decide) (by decide),
   C7_schema_violations_fatal.2.2.2 [("cat".toList, 0)] (1/10)
     [⟨⟨[⟨100, 100, 3⟩], [⟨"cat".toList, [⟨-5, 50, 20, 60⟩]⟩]⟩,
       "a.jpg".toList, true, 1/2⟩]
     ⟨⟨[⟨100, 100, 3⟩], [⟨"cat".toList, [⟨-5, 50, 20, 60⟩]⟩]⟩,
       "a.jpg".toList, true, 1/2⟩
     (by decide) (by decide) (by decide)⟩

/-! ### Claim C3: the Splitter's manifest invariant -/

theorem filter_split_length {α : Type} (l : List α) (k r : α → Bool) :
    (l.filter fun x => k x && !(r x)).length +
      (l.filter fun x => k x && r x).length = (l.filter k).length := by
  induction l with
  | nil => rfl
  | cons x xs ih =>
    simp only [List.filter_cons]
    cases hk : k x <;> cases hr : r x <;> simp <;> omega

theorem splitLoop_ok (classes : ClassMap) (p : ℚ) :
    ∀ (entries : List SplitEntry) (st0 st : SplitState),
      splitLoop classes p entries st0 = .ok st →
      st.train = st0.train ++ ((entries.filter fun e =>
        keptEntry classes e && !(decide (e.rand < p))).map
          SplitEntry.jpgName) ∧
      st.test = st0.test ++ ((entries.filter fun e =>
        keptEntry classes e && decide (e.rand < p)).map
          SplitEntry.jpgName) ∧
      st.processed = st0.processed +
        (entries.filter (keptEntry classes)).length := by
  intro entries
  induction entries with
  | nil =>
    intro st0 st h
    rw [splitLoop] at h
    cases h
    simp
  | cons e rest ih =>
    intro st0 st h
    rw [splitLoop] at h
    cases hjpg : e.jpgExists with
    | false =>
      simp only [splitStep, hjpg, Bool.false_eq_true, if_false] at h
      obtain ⟨h1, h2, h3⟩ := ih st0 st h
      refine ⟨?_, ?_, ?_⟩ <;>
        simp [keptEntry, hjpg, List.filter_cons, h1, h2, h3]
    | true =>
      simp only [splitStep, hjpg, if_true] at h
      cases hcv : convert classes e.ann with
      | error err => simp [hcv] at h
      | ok r =>
        cases r with
        | none =>
          simp only [hcv] at h
          obtain ⟨h1, h2, h3⟩ := ih _ st h
          refine ⟨?_, ?_, ?_⟩ <;>
            simp [keptEntry, hjpg, hcv, List.filter_cons, h1, h2, h3]
        | some data =>
          simp only [hcv] at h
          by_cases hr : e.rand < p
          · simp only [if_pos hr] at h
            obtain ⟨h1, h2, h3⟩ := ih _ st h
            refine ⟨?_, ?_, ?_⟩ <;>
              simp [keptEntry, hjpg, hcv, hr, List.filter_cons,
                h1, h2, h3] <;>
              omega
          · simp only [if_neg hr] at h
            obtain ⟨h1, h2, h3⟩ := ih _ st h
            refine ⟨?_, ?_, ?_⟩ <;>
              simp [keptEntry, hjpg, hcv, hr, List.filter_cons,
                h1, h2, h3] <;>
              omega

/-- C3: on a successful Splitter run, the number of lines written across
the train and test manifests equals the processed count, which equals
the number of entries that both have a paired image and convert with at
least one recognized object; the train manifest holds exactly the kept
entries drawn at or above the threshold and the test manifest exactly
those drawn below it, so each kept image path goes to exactly one
manifest. -/
theorem C3_manifest_partition (classes : ClassMap) (p : ℚ)
    (entries : List SplitEntry) (st : SplitState)
    (h : splitRun classes p entries = .ok st) :
    st.train.length + st.test.length = st.processed ∧
    st.processed = (entries.filter (keptEntry classes)).length ∧
    st.train = (entries.filter fun e =>
      keptEntry classes e && !(decide (e.rand < p))).map
        SplitEntry.jpgName ∧
    st.test = (entries.filter fun e =>
      keptEntry classes e && decide (e.rand < p)).map SplitEntry.jpgName := by
  rw [splitRun] at h
  obtain ⟨h1, h2, h3⟩ := splitLoop_ok classes p entries ⟨[], [], 0, 0⟩ st h
  simp only [List.nil_append] at h1 h2
  refine ⟨?_, by simpa using h3, h1, h2⟩
  rw [h1, h2, h3]
  simp only [List.length_map]
  have := filter_split_length entries (keptEntry classes)
    (fun e => decide (e.rand < p))
  simp
  omega

/-- Witness for C3: a one-entry run whose draw 1/2 is above the 1/10
threshold lands in the train manifest and the counts agree. -/
theorem C3_manifest_partition_witness :
    splitRun [("cat".toList, 0)] (1/10)
        [⟨⟨[⟨100, 100, 3⟩], [⟨"cat".toList, [⟨10, 50, 20, 60⟩]⟩]⟩,
          "a.jpg".toList, true, (1/2 : ℚ)⟩] =
      .ok ⟨["a.jpg".toList], [], 1, 1⟩ ∧
    (⟨["a.jpg".toList], [], 1, 1⟩ : SplitState).train.length +
        (⟨["a.jpg".toList], [], 1, 1⟩ : SplitState).test.length =
      (⟨["a.jpg".toList], [], 1, 1⟩ : SplitState).processed :=
  ⟨by decide,
   (C3_manifest_partition [("cat".toList, 0)] (1/10)
      [⟨⟨[⟨100, 100, 3⟩], [⟨"cat".toList, [⟨10, 50, 20, 60⟩]⟩]⟩,
        "a.jpg".toList, true, (1/2 : ℚ)⟩] ⟨["a.jpg".toList], [], 1, 1⟩
      (by decide)).1⟩

/-! ### Claim C4: configuration validation -/

/-- C4 (code bug): argparse's `choices=[Range(0.0, 1.0)]` check uses
`Range.__eq__`, whose comparisons are inclusive, so the boundary values
0.0 and 1.0 are ACCEPTED at argument-parse time (only values strictly
outside [0, 1] are rejected there); they fail only later, at
`TrainingData.__init__`'s assert, after the Flattener has already copied
files. An empty class string is never rejected: it builds the class map
{"": 0}. This contradicts both the claim and the code's own help text /
repr, which call the range exclusive. -/
theorem C4_boundary_values_pass_argparse :
    percentChoiceAccepts 0 = true ∧
    percentChoiceAccepts 1 = true ∧
    percentChoiceAccepts (3/2 : ℚ) = false ∧
    percentChoiceAccepts (-(1/2) : ℚ) = false ∧
    trainingPre 0 = false ∧
    trainingPre 1 = false ∧
    buildClasses [] = [([], 0)] := by decide

end LabelImg
